import Mathlib

/-!
Verification of the path-navigation protocol of `serde_json_borrow`
(`src/index.rs`): the `Index` trait and its implementations for `usize`,
`str`, `String`, `Cow` (feature `cowkeys`) and blanket references, together
with the `Value.get` entry point described by the specification.

The `Value` tree is embedded shallowly: borrowed and owned string data both
collapse to `String` (the spec notes this collapse is sound in an
owned-value target), and the numeric payload is abstracted to `Int`, since
no navigation behaviour inspects it.
-/

namespace SerdeJsonBorrow

/-- The `Value` tagged union: the six structural kinds of a parsed JSON
tree.  Objects are ordered sequences of key/value pairs (not a hash map),
with duplicate keys permitted. -/
inductive Value where
  | null : Value
  | bool (b : Bool) : Value
  | number (n : Int) : Value
  | str (s : String) : Value
  | array (elems : List Value) : Value
  | object (entries : List (String × Value)) : Value

/-- The closed set of key types accepted by the sealed `Index` trait:
`usize`, `str`, `String`, `Cow` over `str` (with its borrowed/owned flag),
and a reference to any accepted key type (the blanket `impl Index for &T`).
The sealed-trait pattern makes the set closed, which this inductive type
reflects exactly. -/
inductive Key where
  | usize (i : Nat) : Key
  | str (s : String) : Key
  | string (s : String) : Key
  | cow (owned : Bool) (s : String) : Key
  | ref (k : Key) : Key

/-- `impl Index for usize`:
`match v { Value::Array(vec) => vec.get(*self), _ => None }`. -/
def index_into_usize (i : Nat) : Value → Option Value
  | .array vec => vec.get? i
  | _ => none

/-- `impl Index for str`:
`match v { Value::Object(map) => map.iter().find(|(k, _v)| *k == self).map(|(_k, v)| v), _ => None }`. -/
def index_into_str (s : String) : Value → Option Value
  | .object map => (map.find? fun p => p.1 == s).map fun p => p.2
  | _ => none

/-- `Index::index_into`, dispatching over the implementations in
`src/index.rs`:
* `String`: `self.as_str().index_into(v)` — delegates to the `str` impl
* `Cow` (either variant): `(**self).index_into(v)` — dereferences to `str`
* `&T`: `(**self).index_into(v)` — delegates to the referenced key. -/
def index_into : Key → Value → Option Value
  | .usize i, v => index_into_usize i v
  | .str s, v => index_into_str s v
  | .string s, v => index_into_str s v
  | .cow _ s, v => index_into_str s v
  | .ref k, v => index_into k v

/-- Modelled from the spec: the `get` method of `Value` lives in the
crate's value module, which is not among the provided sources.  The spec
states: `get(value, key) -> &Value` returns the addressed child, and "No
match, or a non-Object value, yields the Null-sentinel" (likewise for
arrays); the sentinel is a single shared `Null` value.  In the embedding
the sentinel is the `Value.null` constructor, so `get` is `index_into`
with `null` substituted for a miss. -/
def Value.get (v : Value) (k : Key) : Value :=
  (index_into k v).getD Value.null

/-- Whether a `Value` is the `Array` variant. -/
def Value.isArray : Value → Bool
  | .array _ => true
  | _ => false

/-- Whether a `Value` is the `Object` variant. -/
def Value.isObject : Value → Bool
  | .object _ => true
  | _ => false

/-- The two logical key kinds of the navigation protocol. -/
inductive KeyKind where
  | integer : KeyKind
  | stringLike : KeyKind
deriving DecidableEq

/-- The logical kind a key dispatches to: `usize` is the integer kind;
`str`, `String` and `Cow` are string-like; a reference has the kind of the
key it points at. -/
def Key.kind : Key → KeyKind
  | .usize _ => .integer
  | .str _ => .stringLike
  | .string _ => .stringLike
  | .cow _ _ => .stringLike
  | .ref k => k.kind

/-- A key/value variant mismatch: an integer key applied to a non-Array
value, or a string-like key applied to a non-Object value. -/
def keyVariantMismatch (k : Key) (v : Value) : Bool :=
  match k.kind with
  | .integer => !v.isArray
  | .stringLike => !v.isObject

/-- One navigation call as an explicit state transition: the state is the
tree being navigated.  `index_into` takes the tree by shared reference
(`&'a Value<'ctx>`), so the call leaves the tree as it was and produces
the addressed child (or the sentinel). -/
def getStep (v : Value) (k : Key) : Value × Value :=
  (v, v.get k)

/-- Run a sequence of navigation calls against a tree, threading the tree
state through the calls and collecting each call's result. -/
def runGets : Value → List Key → Value × List Value
  | v, [] => (v, [])
  | v, k :: ks =>
    let step := getStep v k
    let rest := runGets step.1 ks
    (rest.1, step.2 :: rest.2)

/-- Wrap a key in `n` layers of references (`&`, `&&`, ...). -/
def iterRef : Nat → Key → Key
  | 0, k => k
  | n + 1, k => .ref (iterRef n k)

/-- The documentation example's input tree `{"x": {"y": ["z", "zz"]}}`. -/
def scenarioRoot : Value :=
  .object [("x", .object [("y", .array [.str "z", .str "zz"])])]

/-! ## Helper lemmas -/

/-- No key finds anything in the `Null` value: every `index_into`
implementation falls through to `None` on `Null`. -/
theorem index_into_null (k : Key) : index_into k Value.null = none := by
  induction k <;> simp [index_into, index_into_usize, index_into_str, *]

/-- Navigating from the `Null` sentinel yields the sentinel again. -/
theorem get_null (k : Key) : Value.get Value.null k = Value.null := by
  simp [Value.get, index_into_null]

/-- A key whose kind does not match the value's variant makes every
`index_into` implementation fall through to `None`. -/
theorem index_into_eq_none_of_mismatch (k : Key) (v : Value)
    (h : keyVariantMismatch k v = true) : index_into k v = none := by
  induction k with
  | usize i =>
    cases v <;>
      simp_all [keyVariantMismatch, Key.kind, Value.isArray, index_into,
        index_into_usize]
  | str s =>
    cases v <;>
      simp_all [keyVariantMismatch, Key.kind, Value.isObject, index_into,
        index_into_str]
  | string s =>
    cases v <;>
      simp_all [keyVariantMismatch, Key.kind, Value.isObject, index_into,
        index_into_str]
  | cow owned s =>
    cases v <;>
      simp_all [keyVariantMismatch, Key.kind, Value.isObject, index_into,
        index_into_str]
  | ref k ih => exact ih h

/-- Folding any chain of navigation calls from the sentinel stays at the
sentinel. -/
theorem foldl_get_null (ks : List Key) :
    List.foldl Value.get Value.null ks = Value.null := by
  induction ks with
  | nil => rfl
  | cons k ks ih => simpa [get_null] using ih

/-- Forward scan over an association list: if no pair before the first
`(k, val)` entry has key `k`, the scan finds `(k, val)`. -/
theorem find?_key_append (k : String) (val : Value)
    (pre post : List (String × Value)) (hpre : ∀ p ∈ pre, p.1 ≠ k) :
    ((pre ++ (k, val) :: post).find? fun p => p.1 == k) = some (k, val) := by
  induction pre with
  | nil => simp [List.find?]
  | cons a rest ih =>
    have ha : (a.1 == k) = false := by
      simpa using hpre a (List.mem_cons_self a rest)
    simp only [List.cons_append, List.find?, ha]
    exact ih fun p hp => hpre p (List.mem_cons_of_mem a hp)

/-! ## Claim theorems -/

/-- C1: string-key navigation on an Object is a linear forward scan,
returning the value of the first pair whose key equals the given key
(first match wins on duplicates); no match, or a non-Object value, yields
the Null-sentinel. -/
theorem get_object_first_match (k : String) :
    (∀ (pre post : List (String × Value)) (val : Value),
        (∀ p ∈ pre, p.1 ≠ k) →
        Value.get (.object (pre ++ (k, val) :: post)) (.str k) = val) ∧
    (∀ entries : List (String × Value),
        (∀ p ∈ entries, p.1 ≠ k) →
        Value.get (.object entries) (.str k) = .null) ∧
    (∀ v : Value, v.isObject = false → Value.get v (.str k) = .null) ∧
    Value.get (.object [("a", .number 1), ("a", .number 2)]) (.str "a") =
      .number 1 := by
  refine ⟨?_, ?_, ?_, rfl⟩
  · intro pre post val hpre
    simp [Value.get, index_into, index_into_str, find?_key_append k val pre post hpre]
  · intro entries hmiss
    have hnone : (entries.find? fun p => p.1 == k) = none := by
      rw [List.find?_eq_none]
      intro p hp
      simpa using hmiss p hp
    simp [Value.get, index_into, index_into_str, hnone]
  · intro v hv
    cases v <;> simp_all [Value.isObject, Value.get, index_into, index_into_str]

/-- C1 witness: in an object `[("b",0), ("a",1), ("a",2)]`, looking up
`"a"` yields the first match `1`. -/
theorem get_object_first_match_witness :
    Value.get (.object [("b", .number 0), ("a", .number 1), ("a", .number 2)])
      (.str "a") = .number 1 :=
  (get_object_first_match "a").1 [("b", .number 0)] [("a", .number 2)]
    (.number 1) (by decide)

/-- C2: integer-key navigation on an Array of length `n` returns the
`i`-th element for `i < n`, the Null-sentinel for `i ≥ n`, and the
Null-sentinel on every non-Array value. -/
theorem get_array_bounds :
    (∀ (xs : List Value) (i : Nat) (h : i < xs.length),
        Value.get (.array xs) (.usize i) = xs.get ⟨i, h⟩) ∧
    (∀ (xs : List Value) (i : Nat), xs.length ≤ i →
        Value.get (.array xs) (.usize i) = .null) ∧
    (∀ (v : Value) (i : Nat), v.isArray = false →
        Value.get v (.usize i) = .null) := by
  refine ⟨?_, ?_, ?_⟩
  · intro xs i h
    simp [Value.get, index_into, index_into_usize, List.getElem?_eq_getElem, h,
      List.get_eq_getElem]
  · intro xs i h
    simp [Value.get, index_into, index_into_usize, List.getElem?_eq_none, h]
  · intro v i hv
    cases v <;> simp_all [Value.isArray, Value.get, index_into, index_into_usize]

/-- C2 witness: on the array `[7, 8]`, index 1 hits `8`, index 2 is out of
bounds and yields the sentinel, and an integer index on a Number yields
the sentinel. -/
theorem get_array_bounds_witness :
    Value.get (.array [.number 7, .number 8]) (.usize 1) = .number 8 ∧
    Value.get (.array [.number 7, .number 8]) (.usize 2) = .null ∧
    Value.get (.number 7) (.usize 0) = .null :=
  ⟨get_array_bounds.1 [.number 7, .number 8] 1 (by decide),
   get_array_bounds.2.1 [.number 7, .number 8] 2 (by decide),
   get_array_bounds.2.2 (.number 7) 0 rfl⟩

/-- C3: when the key's required variant does not match the value (integer
key on a non-Array, string-like key on a non-Object), `get` yields the
Null-sentinel, any further `get` on that result yields the Null-sentinel,
and any chain of further `get` calls stays at the Null-sentinel. -/
theorem get_miss_propagation (k : Key) (v : Value)
    (h : keyVariantMismatch k v = true) :
    Value.get v k = .null ∧
    (∀ k2 : Key, Value.get (Value.get v k) k2 = .null) ∧
    (∀ ks : List Key, List.foldl Value.get (Value.get v k) ks = .null) := by
  have h0 : Value.get v k = .null := by
    simp [Value.get, index_into_eq_none_of_mismatch k v h]
  refine ⟨h0, fun k2 => ?_, fun ks => ?_⟩
  · rw [h0]; exact get_null k2
  · rw [h0]; exact foldl_get_null ks

/-- C3 witness: a string key on an Array misses, and a further integer
`get` on the result still yields the sentinel. -/
theorem get_miss_propagation_witness :
    keyVariantMismatch (.str "a") (.array [.number 1]) = true ∧
    Value.get (.array [.number 1]) (.str "a") = .null ∧
    Value.get (Value.get (.array [.number 1]) (.str "a")) (.usize 0) =
      .null := by
  have h := get_miss_propagation (.str "a") (.array [.number 1]) rfl
  exact ⟨rfl, h.1, h.2.1 (.usize 0)⟩

/-- C4: totality — for every value and every accepted key, `get` returns
a value: either the hit found by `index_into`, or the Null-sentinel.
There is no failing case. -/
theorem get_total (v : Value) (k : Key) :
    (index_into k v = none ∧ Value.get v k = .null) ∨
    (∃ w, index_into k v = some w ∧ Value.get v k = w) := by
  cases hx : index_into k v with
  | none => exact Or.inl ⟨rfl, by simp [Value.get, hx]⟩
  | some w => exact Or.inr ⟨w, rfl, by simp [Value.get, hx]⟩

/-- C5: key-kind transparency — a key passed as a string slice, as an
owned `String`, or as a reference to either yields the same navigation
result on every value. -/
theorem get_key_kind_transparent (v : Value) (s : String) :
    Value.get v (.string s) = Value.get v (.str s) ∧
    Value.get v (.ref (.str s)) = Value.get v (.str s) ∧
    Value.get v (.ref (.string s)) = Value.get v (.str s) :=
  ⟨rfl, rfl, rfl⟩

/-- C6: the documentation scenario on `{"x": {"y": ["z", "zz"]}}`:
`get(get(get(root,"x"),"y"),0)` is the string `"z"`; index 2 on that array
is the sentinel; `get(root,"a")` is the sentinel; and
`get(get(root,"a"),"b")` is the sentinel. -/
theorem get_doc_scenario :
    ((scenarioRoot.get (.str "x")).get (.str "y")).get (.usize 0) =
      .str "z" ∧
    ((scenarioRoot.get (.str "x")).get (.str "y")).get (.usize 2) = .null ∧
    scenarioRoot.get (.str "a") = .null ∧
    (scenarioRoot.get (.str "a")).get (.str "b") = .null :=
  ⟨rfl, rfl, rfl, rfl⟩

/-- C7: navigation never mutates and is referentially transparent —
running any sequence of `get` calls, threading the tree state through
each call, leaves the tree unchanged, and each call's result depends only
on the tree and its own key. -/
theorem runGets_preserves_tree (v : Value) (ks : List Key) :
    (runGets v ks).1 = v ∧ (runGets v ks).2 = ks.map (Value.get v) := by
  induction ks with
  | nil => exact ⟨rfl, rfl⟩
  | cons k ks ih =>
    refine ⟨?_, ?_⟩ <;> simp [runGets, getStep, ih.1, ih.2]

/-- C8: closed polymorphism — every accepted key has one of exactly two
logical kinds, and it navigates exactly as the canonical key of that
kind does: an integer key behaves as some `usize` position, a string-like
key as some `str` object key. -/
theorem key_kinds_closed (k : Key) :
    (k.kind = .integer ∨ k.kind = .stringLike) ∧
    ((∃ i, k.kind = .integer ∧ ∀ v, Value.get v k = Value.get v (.usize i)) ∨
     (∃ s, k.kind = .stringLike ∧ ∀ v, Value.get v k = Value.get v (.str s))) := by
  induction k with
  | usize i => exact ⟨Or.inl rfl, Or.inl ⟨i, rfl, fun v => rfl⟩⟩
  | str s => exact ⟨Or.inr rfl, Or.inr ⟨s, rfl, fun v => rfl⟩⟩
  | string s => exact ⟨Or.inr rfl, Or.inr ⟨s, rfl, fun v => rfl⟩⟩
  | cow owned s => exact ⟨Or.inr rfl, Or.inr ⟨s, rfl, fun v => rfl⟩⟩
  | ref k ih => exact ih

/-- C9: reference layers compose at any depth — wrapping a key in any
number of reference layers leaves `index_into` unchanged, because the
blanket reference implementation delegates to the underlying key. -/
theorem index_into_iterRef (n : Nat) (k : Key) (v : Value) :
    index_into (iterRef n k) v = index_into k v := by
  induction n with
  | zero => rfl
  | succ n ih => exact ih

/-- C10: under the `cowkeys` feature, a `Cow` string key — borrowed or
owned — indexes exactly as the underlying string slice does, because its
implementation dereferences to `str`. -/
theorem index_into_cow_eq_str (owned : Bool) (s : String) (v : Value) :
    index_into (.cow owned s) v = index_into (.str s) v :=
  rfl

end SerdeJsonBorrow
